import Mathlib

/-!
# eink_task.c : the E-Ink page-cycling task

A shallow embedding of `src/eink_task.c`.  The task talks to three external
libraries (emWin GUI, the E2271CS021 panel driver, the Cypress HAL) and to
FreeRTOS.  Every call into them is recorded, in program order, in a trace of
`Call` values; the values that `cyhal_gpio_read` returns for the user button
come from a finite list of samples.  When the list is exhausted while the
task spins in one of the two `while` loops of
`wait_for_switch_press_and_release`, the outcome is `blocked`.
-/

namespace EInk

/-! ## External vocabulary -/

/-- Fonts of emWin used by the file. -/
inductive Font where
  | GUI_FONT_16B_1
  | GUI_FONT_32B_1
  deriving DecidableEq, Repr

/-- Colours of emWin used by the file. -/
inductive Color where
  | GUI_BLACK
  | GUI_WHITE
  deriving DecidableEq, Repr

/-- Update modes of `mtb_e2271cs021_show_frame` used by the file. -/
inductive FrameMode where
  | MTB_E2271CS021_FULL_4STAGE
  | MTB_E2271CS021_FULL_2STAGE
  deriving DecidableEq, Repr

/-- One call into an external library, with the arguments the source passes.
`cyhal_gpio_read v` records the value `v` the read returned. -/
inductive Call where
  | GUI_Init
  | GUI_SetFont (font : Font)
  | GUI_SetColor (color : Color)
  | GUI_SetBkColor (color : Color)
  | GUI_SetTextMode_NORMAL
  | GUI_SetTextAlign_HCENTER
  | GUI_Clear
  | GUI_DispStringAt (s : String) (x y : Int)
  | GUI_FillPolygon (points : List (Int × Int)) (numPoints : Nat) (x y : Int)
  | LCD_GetDisplayBuffer
  | cyhal_gpio_init
  | cyhal_gpio_read (value : Bool)
  | cyhal_pwm_init
  | cyhal_pwm_set_duty_cycle (duty_cycle : Int) (frequency_hz : Nat)
  | cyhal_pwm_start
  | cyhal_spi_init
  | cyhal_spi_set_frequency (hz : Nat)
  | mtb_e2271cs021_init
  | mtb_e2271cs021_set_temp_factor (temperature : Int)
  | mtb_e2271cs021_show_frame (mode : FrameMode) (power_cycle : Bool)
  | vTaskDelay (ticks : Nat)
  deriving DecidableEq, Repr

/-- The parts of the board support package and of the HAL that the file uses
but does not define, and the results the two SPI calls return. -/
structure Env where
  /-- The level `cyhal_gpio_read` returns while the button is held. -/
  CYBSP_BTN_PRESSED : Bool
  /-- The success code of `cy_rslt_t`. -/
  CY_RSLT_SUCCESS : Nat
  /-- The result of `cyhal_spi_init`. -/
  spi_init_result : Nat
  /-- The result of `cyhal_spi_set_frequency`. -/
  spi_set_frequency_result : Nat
  deriving DecidableEq, Repr

/-! ## State and outcomes -/

/-- The outside world as the task sees it: the button samples still to be
read and the calls made so far. -/
structure World where
  samples : List Bool
  trace : List Call
  deriving DecidableEq, Repr

/-- How a piece of the program ends. -/
inductive Outcome (α : Type) where
  /-- It returned `a`. -/
  | ret (a : α) (w : World)
  /-- It is spinning in a button wait and the samples are exhausted. -/
  | blocked (w : World)
  /-- It indexed `ledPageArray` outside its bounds. -/
  | fault (w : World)
  /-- The unrolling bound of `for(;;)` was reached. -/
  | timeout (w : World)
  deriving DecidableEq, Repr

/-- The world an outcome ends in. -/
def Outcome.world {α : Type} : Outcome α → World
  | .ret _ w => w
  | .blocked w => w
  | .fault w => w
  | .timeout w => w

/-- A piece of the program: a function of the world. -/
def Task (α : Type) : Type := World → Outcome α

/-- Sequencing: the second piece runs only when the first returned. -/
def Task.bind {α β : Type} (m : Task α) (f : α → Task β) : Task β := fun w =>
  match m w with
  | .ret a w1 => f a w1
  | .blocked w1 => .blocked w1
  | .fault w1 => .fault w1
  | .timeout w1 => .timeout w1

instance : Monad Task where
  pure a := fun w => .ret a w
  bind := Task.bind

/-- Make one external call that returns nothing of interest. -/
def call (c : Call) : Task Unit := fun w =>
  .ret () { w with trace := w.trace ++ [c] }

/-- Make a sequence of external calls. -/
def calls (cs : List Call) : Task Unit := fun w =>
  .ret () { w with trace := w.trace ++ cs }

/-! ## Constants of the file -/

/-- The points of the triangle. -/
def aPointTriangle : List (Int × Int) := [(10, 0), (0, 5), (0, -5)]

def DELAY_AFTER_STARTUP_SCREEN_MS : Nat := 2000
def AMBIENT_TEMPERATURE_C : Int := 20
def SPI_BAUD_RATE_HZ : Nat := 20000000

/-! ## The screens

Each screen function is straight-line code that only calls emWin, so it is
embedded as the list of its calls. -/

def show_startup_screen : List Call :=
  [ .GUI_SetFont .GUI_FONT_16B_1,
    .GUI_SetColor .GUI_BLACK,
    .GUI_SetBkColor .GUI_WHITE,
    .GUI_Clear,
    .GUI_SetTextAlign_HCENTER,
    .GUI_DispStringAt "CYPRESS" 132 85,
    .GUI_SetTextAlign_HCENTER,
    .GUI_DispStringAt "EMWIN GRAPHICS" 132 105,
    .GUI_SetTextAlign_HCENTER,
    .GUI_DispStringAt "EINK DISPLAY DEMO" 132 125 ]

def show_instructions_screen : List Call :=
  [ .GUI_SetFont .GUI_FONT_16B_1,
    .GUI_SetBkColor .GUI_WHITE,
    .GUI_SetColor .GUI_BLACK,
    .GUI_SetTextMode_NORMAL,
    .GUI_Clear,
    .GUI_SetTextAlign_HCENTER,
    .GUI_DispStringAt "PRESS SW2 ON THE KIT" 132 58,
    .GUI_SetTextAlign_HCENTER,
    .GUI_DispStringAt "TO SWITCH " 132 78,
    .GUI_SetTextAlign_HCENTER,
    .GUI_DispStringAt "LED mode!" 132 98 ]

def show_led_on : List Call :=
  [ .GUI_SetFont .GUI_FONT_32B_1,
    .GUI_SetBkColor .GUI_WHITE,
    .GUI_SetColor .GUI_BLACK,
    .GUI_SetTextMode_NORMAL,
    .GUI_Clear,
    .GUI_SetTextAlign_HCENTER,
    .GUI_DispStringAt "LED" 132 5,
    .GUI_SetFont .GUI_FONT_16B_1,
    .GUI_DispStringAt "ON" 110 58,
    .GUI_DispStringAt "OFF" 110 78,
    .GUI_DispStringAt "BLINK" 110 98,
    .GUI_FillPolygon aPointTriangle 3 90 65 ]

def show_led_off : List Call :=
  [ .GUI_SetFont .GUI_FONT_32B_1,
    .GUI_SetBkColor .GUI_WHITE,
    .GUI_SetColor .GUI_BLACK,
    .GUI_SetTextMode_NORMAL,
    .GUI_Clear,
    .GUI_SetTextAlign_HCENTER,
    .GUI_DispStringAt "LED" 132 5,
    .GUI_SetFont .GUI_FONT_16B_1,
    .GUI_DispStringAt "ON" 110 58,
    .GUI_DispStringAt "OFF" 110 78,
    .GUI_DispStringAt "BLINK" 110 98,
    .GUI_FillPolygon aPointTriangle 3 90 85 ]

def show_led_blink : List Call :=
  [ .GUI_SetFont .GUI_FONT_32B_1,
    .GUI_SetBkColor .GUI_WHITE,
    .GUI_SetColor .GUI_BLACK,
    .GUI_SetTextMode_NORMAL,
    .GUI_Clear,
    .GUI_SetTextAlign_HCENTER,
    .GUI_DispStringAt "LED" 132 5,
    .GUI_SetFont .GUI_FONT_16B_1,
    .GUI_DispStringAt "ON" 110 58,
    .GUI_DispStringAt "OFF" 110 78,
    .GUI_DispStringAt "BLINK" 110 98,
    .GUI_FillPolygon aPointTriangle 3 90 105 ]

def clear_screen : List Call :=
  [ .GUI_SetColor .GUI_BLACK,
    .GUI_SetBkColor .GUI_WHITE,
    .GUI_Clear ]

/-! ## The button wait -/

/-- The loop `while( CYBSP_BTN_PRESSED != cyhal_gpio_read(CYBSP_USER_BTN));`
run on the samples `s` with the trace `tr` so far. -/
def wait_pressed_loop (env : Env) : List Bool → List Call → Outcome Unit
  | [], tr => .blocked ⟨[], tr⟩
  | v :: rest, tr =>
    if env.CYBSP_BTN_PRESSED != v then
      wait_pressed_loop env rest (tr ++ [.cyhal_gpio_read v])
    else
      .ret () ⟨rest, tr ++ [.cyhal_gpio_read v]⟩

/-- The loop `while( CYBSP_BTN_PRESSED == cyhal_gpio_read(CYBSP_USER_BTN));`
run on the samples `s` with the trace `tr` so far. -/
def wait_released_loop (env : Env) : List Bool → List Call → Outcome Unit
  | [], tr => .blocked ⟨[], tr⟩
  | v :: rest, tr =>
    if env.CYBSP_BTN_PRESSED == v then
      wait_released_loop env rest (tr ++ [.cyhal_gpio_read v])
    else
      .ret () ⟨rest, tr ++ [.cyhal_gpio_read v]⟩

def wait_for_switch_press_and_release (env : Env) : Task Unit := do
  /- Wait for SW2 to be pressed -/
  (fun w => wait_pressed_loop env w.samples w.trace)
  /- Wait for SW2 to be released -/
  (fun w => wait_released_loop env w.samples w.trace)

/-! ## The task -/

/-- Array of demo pages functions. -/
def ledPageArray : List (List Call) :=
  [ show_led_on,
    show_led_blink,
    show_led_off ]

/-- The count `sizeof(ledPageArray)/sizeof(ledPageArray[0])` stored in a
`uint8_t`. -/
def num_of_demo_pages : Nat := ledPageArray.length % 256

/-- The two locals of `eInk_task` that the page loop updates. -/
structure Locals where
  /-- A `uint8_t`. -/
  page_number : Nat
  /-- An `int`. -/
  duty_cycle : Int
  deriving DecidableEq, Repr

/-- The call `(*ledPageArray[page_number])()`: an index outside the array is
a fault. -/
def call_page (page_number : Nat) : Task Unit := fun w =>
  match ledPageArray[page_number]? with
  | some page => calls page w
  | none => .fault w

/-- The body of the `for(;;)` of `eInk_task`; it returns the locals the next
iteration starts with. -/
def loop_body (env : Env) (l : Locals) : Task Locals := do
  let duty_cycle := Int.tmod (l.duty_cycle + 50) 150
  call (.cyhal_pwm_set_duty_cycle duty_cycle 1)
  call .cyhal_pwm_start
  /- Using page_number as index, update the display with a demo screen -/
  call_page l.page_number
  /- Update the display -/
  call (.mtb_e2271cs021_show_frame .MTB_E2271CS021_FULL_2STAGE true)
  /- Wait for a switch press event -/
  wait_for_switch_press_and_release env
  /- Cycle through demo pages -/
  let page_number := ((l.page_number + 1) % num_of_demo_pages) % 256
  pure ⟨page_number, duty_cycle⟩

/-- The `for(;;)` of `eInk_task`, unrolled at most `fuel` times. -/
def page_loop (env : Env) : Nat → Locals → Task Unit
  | 0, _ => fun w => .timeout w
  | fuel + 1, l => do
    let l1 ← loop_body env l
    page_loop env fuel l1

/-- The values of `page_number` and `duty_cycle` when the `for(;;)` is
entered. -/
def loop_entry : Locals := ⟨0, 100⟩

/-- The first `k` iterations of the `for(;;)`; it returns the locals the
iteration number `k` (counting from 0) starts with. -/
def loop_iterations (env : Env) : Nat → Locals → Task Locals
  | 0, l => pure l
  | k + 1, l => do
    let l1 ← loop_body env l
    loop_iterations env k l1

def eInk_task (env : Env) (fuel : Nat) : Task Unit := do
  let page_number : Nat := 0
  /- Configure Switch and LEDs -/
  call .cyhal_gpio_init
  let duty_cycle : Int := 100
  call .cyhal_pwm_init
  call (.cyhal_pwm_set_duty_cycle duty_cycle 1)
  call .cyhal_pwm_start
  /- Initialize SPI and EINK display -/
  call .cyhal_spi_init
  if env.CY_RSLT_SUCCESS = env.spi_init_result then
    call (.cyhal_spi_set_frequency SPI_BAUD_RATE_HZ)
    if env.CY_RSLT_SUCCESS = env.spi_set_frequency_result then
      call .mtb_e2271cs021_init
      call (.mtb_e2271cs021_set_temp_factor AMBIENT_TEMPERATURE_C)
      call .LCD_GetDisplayBuffer
      call .GUI_Init
      /- Show the startup screen -/
      calls show_startup_screen
      call (.mtb_e2271cs021_show_frame .MTB_E2271CS021_FULL_4STAGE true)
      call (.vTaskDelay DELAY_AFTER_STARTUP_SCREEN_MS)
      /- Show the instructions screen -/
      calls show_instructions_screen
      call (.mtb_e2271cs021_show_frame .MTB_E2271CS021_FULL_4STAGE true)
      wait_for_switch_press_and_release env
      page_loop env fuel ⟨page_number, duty_cycle⟩

/-! ## Vocabulary of the specification -/

/-- The number of complete press-then-release cycles in a sample sequence.
A cycle is a run of one or more pressed samples followed by a non-pressed
sample, so the cycles are counted at the places where a pressed sample is
immediately followed by a non-pressed one. -/
def press_release_cycles (env : Env) : List Bool → Nat
  | a :: b :: rest =>
    (if a = env.CYBSP_BTN_PRESSED ∧ b ≠ env.CYBSP_BTN_PRESSED then 1 else 0)
      + press_release_cycles env (b :: rest)
  | _ => 0

/-- The calls of a trace that are reads of the button. -/
def button_reads (tr : List Call) : List Call :=
  tr.filter fun c => match c with
    | .cyhal_gpio_read _ => true
    | _ => false

/-- The calls of a trace that are not reads of the button. -/
def without_button_reads (tr : List Call) : List Call :=
  tr.filter fun c => match c with
    | .cyhal_gpio_read _ => false
    | _ => true

/-- The duty cycles passed to `cyhal_pwm_set_duty_cycle` in a trace, in
order. -/
def duty_cycles (tr : List Call) : List Int :=
  tr.filterMap fun c => match c with
    | .cyhal_pwm_set_duty_cycle d _ => some d
    | _ => none

/-- The calls that come before the first button wait when both SPI calls
succeed, in the order in which the task description lists them. -/
def calls_before_first_wait : List Call :=
  [ .cyhal_gpio_init,
    .cyhal_pwm_init,
    .cyhal_pwm_set_duty_cycle 100 1,
    .cyhal_pwm_start,
    .cyhal_spi_init,
    .cyhal_spi_set_frequency 20000000,
    .mtb_e2271cs021_init,
    .mtb_e2271cs021_set_temp_factor 20,
    .LCD_GetDisplayBuffer,
    .GUI_Init ]
  ++ show_startup_screen
  ++ [ .mtb_e2271cs021_show_frame .MTB_E2271CS021_FULL_4STAGE true,
       .vTaskDelay 2000 ]
  ++ show_instructions_screen
  ++ [ .mtb_e2271cs021_show_frame .MTB_E2271CS021_FULL_4STAGE true ]

/-- The calls with which LED page number `j` (counting from 0) is put on
the display: the duty cycle `50 * (j mod 3)`, the page `ledPageArray[j mod
3]` and a full 2-stage refresh. -/
def led_page_calls (j : Nat) : List Call :=
  [ .cyhal_pwm_set_duty_cycle (50 * ((j % 3 : Nat) : Int)) 1, .cyhal_pwm_start ]
  ++ (ledPageArray[j % 3]?).getD []
  ++ [ .mtb_e2271cs021_show_frame .MTB_E2271CS021_FULL_2STAGE true ]

/-- The strings a screen draws, from top to bottom (increasing `y`, ties in
drawing order), joined by single spaces. -/
def screen_text (screen : List Call) : String :=
  let drawn : List (Int × String) := screen.filterMap fun c => match c with
    | .GUI_DispStringAt s _ y => some (y, s)
    | _ => none
  " ".intercalate ((drawn.insertionSort fun a b => a.1 ≤ b.1).map Prod.snd)

/-- The locals at the start of iteration `j` of the page loop, in closed
form. -/
def locals_at (j : Nat) : Locals := ⟨j % 3, 50 * (((j + 2) % 3 : Nat) : Int)⟩

/-- A board with an active-low button on which both SPI calls succeed. -/
def kit_env : Env := ⟨false, 0, 0, 0⟩

/-! ## Sequencing lemmas -/

theorem bind_apply {α β : Type} (m : Task α) (f : α → Task β) (w : World) :
    (m >>= f) w = Task.bind m f w := rfl

theorem bind_of_ret {α β : Type} {m : Task α} {f : α → Task β} {w w1 : World} {a : α}
    (h : m w = .ret a w1) : (m >>= f) w = f a w1 := by
  simp [bind_apply, Task.bind, h]

theorem bind_of_blocked {α β : Type} {m : Task α} {f : α → Task β} {w w1 : World}
    (h : m w = .blocked w1) : (m >>= f) w = .blocked w1 := by
  simp [bind_apply, Task.bind, h]

theorem call_bind {β : Type} (c : Call) (f : Unit → Task β) (w : World) :
    (call c >>= f) w = f () ⟨w.samples, w.trace ++ [c]⟩ := rfl

theorem calls_bind {β : Type} (cs : List Call) (f : Unit → Task β) (w : World) :
    (calls cs >>= f) w = f () ⟨w.samples, w.trace ++ cs⟩ := rfl

theorem pure_apply {α : Type} (a : α) (w : World) :
    (pure a : Task α) w = .ret a w := rfl

/-! ## The two loops of the button wait -/

theorem bool_eq_not_of_ne {a b : Bool} (h : ¬ a = b) : a = !b := by
  cases a <;> cases b <;> simp_all

theorem wait_pressed_loop_cases (env : Env) (s : List Bool) : ∀ tr : List Call,
    (∃ pre rest, s = pre ++ env.CYBSP_BTN_PRESSED :: rest
        ∧ (∀ v ∈ pre, v = !env.CYBSP_BTN_PRESSED)
        ∧ wait_pressed_loop env s tr
            = .ret () ⟨rest, tr ++ (pre ++ [env.CYBSP_BTN_PRESSED]).map .cyhal_gpio_read⟩)
    ∨ ((∀ v ∈ s, v = !env.CYBSP_BTN_PRESSED)
        ∧ wait_pressed_loop env s tr = .blocked ⟨[], tr ++ s.map .cyhal_gpio_read⟩) := by
  induction s with
  | nil => intro tr; right; simp [wait_pressed_loop]
  | cons v rest ih =>
    intro tr
    by_cases hv : v = env.CYBSP_BTN_PRESSED
    · left
      refine ⟨[], rest, by simp [hv], by simp, ?_⟩
      simp [wait_pressed_loop, hv]
    · have hv2 : v = !env.CYBSP_BTN_PRESSED := bool_eq_not_of_ne hv
      have hne : (env.CYBSP_BTN_PRESSED != v) = true := by
        rw [hv2]; cases env.CYBSP_BTN_PRESSED <;> rfl
      rcases ih (tr ++ [.cyhal_gpio_read v]) with ⟨pre, rest2, h1, h2, h3⟩ | ⟨h1, h2⟩
      · left
        refine ⟨v :: pre, rest2, by simp [h1], ?_, ?_⟩
        · intro x hx
          rcases List.mem_cons.mp hx with h | h
          · rw [h]; exact hv2
          · exact h2 x h
        · simp [wait_pressed_loop, hne, h3]
      · right
        refine ⟨?_, ?_⟩
        · intro x hx
          rcases List.mem_cons.mp hx with h | h
          · rw [h]; exact hv2
          · exact h1 x h
        · simp [wait_pressed_loop, hne, h2]

theorem wait_released_loop_cases (env : Env) (s : List Bool) : ∀ tr : List Call,
    (∃ mid rest, s = mid ++ (!env.CYBSP_BTN_PRESSED) :: rest
        ∧ (∀ v ∈ mid, v = env.CYBSP_BTN_PRESSED)
        ∧ wait_released_loop env s tr
            = .ret () ⟨rest, tr ++ (mid ++ [!env.CYBSP_BTN_PRESSED]).map .cyhal_gpio_read⟩)
    ∨ ((∀ v ∈ s, v = env.CYBSP_BTN_PRESSED)
        ∧ wait_released_loop env s tr = .blocked ⟨[], tr ++ s.map .cyhal_gpio_read⟩) := by
  induction s with
  | nil => intro tr; right; simp [wait_released_loop]
  | cons v rest ih =>
    intro tr
    by_cases hv : v = env.CYBSP_BTN_PRESSED
    · have heq : (env.CYBSP_BTN_PRESSED == v) = true := by simp [hv]
      rcases ih (tr ++ [.cyhal_gpio_read v]) with ⟨mid, rest2, h1, h2, h3⟩ | ⟨h1, h2⟩
      · left
        refine ⟨v :: mid, rest2, by simp [h1], ?_, ?_⟩
        · intro x hx
          rcases List.mem_cons.mp hx with h | h
          · rw [h]; exact hv
          · exact h2 x h
        · simp [wait_released_loop, heq, h3]
      · right
        refine ⟨?_, ?_⟩
        · intro x hx
          rcases List.mem_cons.mp hx with h | h
          · rw [h]; exact hv
          · exact h1 x h
        · simp [wait_released_loop, heq, h2]
    · have hv2 : v = !env.CYBSP_BTN_PRESSED := bool_eq_not_of_ne hv
      have hne : (env.CYBSP_BTN_PRESSED == v) = false := by
        rw [hv2]; cases env.CYBSP_BTN_PRESSED <;> rfl
      left
      refine ⟨[], rest, by simp [hv2], by simp, ?_⟩
      simp [wait_released_loop, hne, hv2]

/-- The button wait either returns, having read a run of non-pressed
samples, one or more pressed samples and one non-pressed sample, or it is
blocked, having read every sample. -/
theorem wait_cases (env : Env) (s : List Bool) (tr : List Call) :
    (∃ pre mid rest,
        s = pre ++ env.CYBSP_BTN_PRESSED :: (mid ++ (!env.CYBSP_BTN_PRESSED) :: rest)
        ∧ (∀ v ∈ pre, v = !env.CYBSP_BTN_PRESSED)
        ∧ (∀ v ∈ mid, v = env.CYBSP_BTN_PRESSED)
        ∧ wait_for_switch_press_and_release env ⟨s, tr⟩
            = .ret () ⟨rest, tr ++ (pre ++ env.CYBSP_BTN_PRESSED
                :: (mid ++ [!env.CYBSP_BTN_PRESSED])).map .cyhal_gpio_read⟩)
    ∨ (((∀ v ∈ s, v = !env.CYBSP_BTN_PRESSED)
          ∨ ∃ pre mid, s = pre ++ env.CYBSP_BTN_PRESSED :: mid
              ∧ (∀ v ∈ pre, v = !env.CYBSP_BTN_PRESSED)
              ∧ (∀ v ∈ mid, v = env.CYBSP_BTN_PRESSED))
        ∧ wait_for_switch_press_and_release env ⟨s, tr⟩
            = .blocked ⟨[], tr ++ s.map .cyhal_gpio_read⟩) := by
  rcases wait_pressed_loop_cases env s tr with ⟨pre, rest1, h1, h2, h3⟩ | ⟨h1, h2⟩
  · rcases wait_released_loop_cases env rest1
        (tr ++ (pre ++ [env.CYBSP_BTN_PRESSED]).map .cyhal_gpio_read)
      with ⟨mid, rest, g1, g2, g3⟩ | ⟨g1, g2⟩
    · left
      refine ⟨pre, mid, rest, by rw [h1, g1], h2, g2, ?_⟩
      unfold wait_for_switch_press_and_release
      rw [bind_of_ret h3]
      show wait_released_loop env rest1 _ = _
      rw [g3]
      simp
    · right
      refine ⟨Or.inr ⟨pre, rest1, h1, h2, g1⟩, ?_⟩
      unfold wait_for_switch_press_and_release
      rw [bind_of_ret h3]
      show wait_released_loop env rest1 _ = _
      rw [g2, h1]
      simp
  · right
    refine ⟨Or.inl h1, ?_⟩
    unfold wait_for_switch_press_and_release
    exact bind_of_blocked h2

theorem getElem?_of_all {l : List Bool} {c : Bool} (h : ∀ v ∈ l, v = c) {k : Nat}
    (hk : k < l.length) : l[k]? = some c := by
  rw [List.getElem?_eq_getElem hk, h _ (List.getElem_mem hk)]

theorem bool_not_ne_self (c : Bool) : (!c) ≠ c := by cases c <;> simp

/-- Index facts about a sample sequence made of non-pressed samples, a run of
pressed samples, a non-pressed sample and a remainder (`c` is the pressed
level). -/
theorem press_release_shape (c : Bool) (pre mid rest : List Bool)
    (hpre : ∀ v ∈ pre, v = !c) (hmid : ∀ v ∈ mid, v = c) :
    (pre ++ c :: (mid ++ (!c) :: rest))[pre.length]? = some c
    ∧ (∀ h, h < pre.length → (pre ++ c :: (mid ++ (!c) :: rest))[h]? = some (!c))
    ∧ (pre ++ c :: (mid ++ (!c) :: rest))[pre.length + 1 + mid.length]? = some (!c)
    ∧ (∀ h, pre.length < h → h < pre.length + 1 + mid.length →
        (pre ++ c :: (mid ++ (!c) :: rest))[h]? = some c)
    ∧ (pre ++ c :: (mid ++ (!c) :: rest)).drop (pre.length + 1 + mid.length + 1) = rest
    ∧ (pre ++ c :: (mid ++ (!c) :: rest)).take (pre.length + 1 + mid.length + 1)
        = pre ++ c :: (mid ++ [!c]) := by
  refine ⟨?_, ?_, ?_, ?_, ?_, ?_⟩
  · rw [List.getElem?_append_right (le_refl _)]; simp
  · intro h hh
    rw [List.getElem?_append_left hh]
    exact getElem?_of_all hpre hh
  · rw [List.getElem?_append_right (by omega)]
    have : pre.length + 1 + mid.length - pre.length = mid.length + 1 := by omega
    rw [this, List.getElem?_cons_succ, List.getElem?_append_right (le_refl _)]
    simp
  · intro h h1 h2
    rw [List.getElem?_append_right (by omega)]
    obtain ⟨d, hd⟩ : ∃ d, h - pre.length = d + 1 := ⟨h - pre.length - 1, by omega⟩
    rw [hd, List.getElem?_cons_succ, List.getElem?_append_left (by omega)]
    exact getElem?_of_all hmid (by omega)
  · have e : pre ++ c :: (mid ++ (!c) :: rest) = (pre ++ c :: (mid ++ [!c])) ++ rest := by simp
    rw [e]
    exact List.drop_left' (by simp; omega)
  · have e : pre ++ c :: (mid ++ (!c) :: rest) = (pre ++ c :: (mid ++ [!c])) ++ rest := by simp
    rw [e]
    exact List.take_left' (by simp; omega)

/-- A sample sequence on which the button wait is blocked has no pressed
sample that is followed later by a non-pressed one. -/
theorem no_press_release_of_blocked_shape (c : Bool) (s : List Bool)
    (h : (∀ v ∈ s, v = !c)
          ∨ ∃ pre mid, s = pre ++ c :: mid ∧ (∀ v ∈ pre, v = !c) ∧ (∀ v ∈ mid, v = c)) :
    ¬ ∃ i j : Nat, i < j ∧ s[i]? = some c ∧ s[j]? = some (!c) := by
  rintro ⟨i, j, hij, hi, hj⟩
  rcases h with h | ⟨pre, mid, hs, hpre, hmid⟩
  · have := h c (List.mem_iff_getElem?.mpr ⟨i, hi⟩)
    exact bool_not_ne_self c this.symm
  · subst hs
    by_cases hlt : i < pre.length
    · rw [List.getElem?_append_left hlt, getElem?_of_all hpre hlt] at hi
      exact bool_not_ne_self c (Option.some.inj hi)
    · rw [List.getElem?_append_right (by omega)] at hj
      obtain ⟨d, hd⟩ : ∃ d, j - pre.length = d + 1 := ⟨j - pre.length - 1, by omega⟩
      rw [hd, List.getElem?_cons_succ] at hj
      exact bool_not_ne_self c (hmid _ (List.mem_iff_getElem?.mpr ⟨d, hj⟩))

/-! ## C6 : what the button wait reads and when it returns -/

/-- C6.  For every finite sequence `s` of button samples, started with any
trace `tr`: `wait_for_switch_press_and_release` returns if and only if `s`
contains a pressed sample followed later by a non-pressed sample; when it
returns, it has read exactly the samples up to and including the first
non-pressed sample `s[j]` that comes after the first pressed sample `s[i]`
(the reads are appended to the trace and the samples after `s[j]` remain);
and when it does not return it is blocked with every sample read. -/
theorem wait_for_switch_press_and_release_returns_iff (env : Env) (s : List Bool)
    (tr : List Call) :
    ((∃ w, wait_for_switch_press_and_release env ⟨s, tr⟩ = .ret () w) ↔
        ∃ i j : Nat, i < j ∧ s[i]? = some env.CYBSP_BTN_PRESSED
          ∧ s[j]? = some (!env.CYBSP_BTN_PRESSED))
    ∧ (∀ w, wait_for_switch_press_and_release env ⟨s, tr⟩ = .ret () w →
        ∃ i j : Nat, i < j
          ∧ s[i]? = some env.CYBSP_BTN_PRESSED
          ∧ (∀ h : Nat, h < i → s[h]? = some (!env.CYBSP_BTN_PRESSED))
          ∧ s[j]? = some (!env.CYBSP_BTN_PRESSED)
          ∧ (∀ h : Nat, i < h → h < j → s[h]? = some env.CYBSP_BTN_PRESSED)
          ∧ w = ⟨s.drop (j + 1), tr ++ (s.take (j + 1)).map .cyhal_gpio_read⟩)
    ∧ ((¬ ∃ w, wait_for_switch_press_and_release env ⟨s, tr⟩ = .ret () w) →
        wait_for_switch_press_and_release env ⟨s, tr⟩
          = .blocked ⟨[], tr ++ s.map .cyhal_gpio_read⟩) := by
  rcases wait_cases env s tr with ⟨pre, mid, rest, hs, hpre, hmid, hret⟩ | ⟨hshape, hblk⟩
  · obtain ⟨e1, e2, e3, e4, e5, e6⟩ :=
      press_release_shape env.CYBSP_BTN_PRESSED pre mid rest hpre hmid
    rw [← hs] at e1 e2 e3 e4 e5 e6
    refine ⟨⟨fun _ => ⟨pre.length, pre.length + 1 + mid.length, by omega, e1, e3⟩,
      fun _ => ⟨_, hret⟩⟩, ?_, ?_⟩
    · intro w hw
      refine ⟨pre.length, pre.length + 1 + mid.length, by omega, e1, e2, e3, e4, ?_⟩
      rw [hret] at hw
      rw [e5, e6]
      exact (Outcome.ret.inj hw).2.symm
    · intro hno
      exact absurd ⟨_, hret⟩ hno
  · refine ⟨⟨?_, ?_⟩, ?_, fun _ => hblk⟩
    · rintro ⟨w, hw⟩
      rw [hblk] at hw
      cases hw
    · intro h
      exact absurd h (no_press_release_of_blocked_shape _ s hshape)
    · intro w hw
      rw [hblk] at hw
      cases hw

/-! ## One iteration of the page loop -/

/-- The iteration `loop_body env l` makes its four calls, then waits for the
button; the locals change only when the wait returns. -/
theorem loop_body_eq (env : Env) (l : Locals) (w : World) (page : List Call)
    (hp : ledPageArray[l.page_number]? = some page) :
    loop_body env l w =
      match wait_for_switch_press_and_release env
          ⟨w.samples, w.trace
            ++ [.cyhal_pwm_set_duty_cycle (Int.tmod (l.duty_cycle + 50) 150) 1,
                .cyhal_pwm_start]
            ++ page
            ++ [.mtb_e2271cs021_show_frame .MTB_E2271CS021_FULL_2STAGE true]⟩ with
      | .ret _ w1 =>
        .ret ⟨((l.page_number + 1) % num_of_demo_pages) % 256,
              Int.tmod (l.duty_cycle + 50) 150⟩ w1
      | .blocked w1 => .blocked w1
      | .fault w1 => .fault w1
      | .timeout w1 => .timeout w1 := by
  unfold loop_body
  simp only [call_bind, bind_apply, Task.bind, call_page, hp, calls, call]
  simp only [List.append_assoc, List.singleton_append, List.cons_append, List.nil_append]
  cases wait_for_switch_press_and_release env _ <;> rfl

theorem loop_body_fault (env : Env) (l : Locals) (w : World)
    (hp : ledPageArray[l.page_number]? = none) :
    loop_body env l w = .fault ⟨w.samples, w.trace
      ++ [.cyhal_pwm_set_duty_cycle (Int.tmod (l.duty_cycle + 50) 150) 1,
          .cyhal_pwm_start]⟩ := by
  unfold loop_body
  simp [call_bind, bind_apply, Task.bind, call_page, hp, call]

/-! ## The locals of the page loop -/

theorem num_of_demo_pages_eq : num_of_demo_pages = 3 := rfl

theorem locals_at_zero : locals_at 0 = loop_entry := rfl

theorem ledPageArray_at (j : Nat) :
    ∃ page, ledPageArray[j % 3]? = some page
      ∧ (j % 3 = 0 → page = show_led_on)
      ∧ (j % 3 = 1 → page = show_led_blink)
      ∧ (j % 3 = 2 → page = show_led_off) := by
  have h : j % 3 = 0 ∨ j % 3 = 1 ∨ j % 3 = 2 := by omega
  rcases h with h | h | h <;> rw [h]
  · exact ⟨show_led_on, rfl, fun _ => rfl, by omega, by omega⟩
  · exact ⟨show_led_blink, rfl, by omega, fun _ => rfl, by omega⟩
  · exact ⟨show_led_off, rfl, by omega, by omega, fun _ => rfl⟩

theorem next_page_number (j : Nat) :
    (((locals_at j).page_number + 1) % num_of_demo_pages) % 256 = (j + 1) % 3 := by
  simp only [locals_at, num_of_demo_pages_eq]
  omega

theorem next_duty_cycle (j : Nat) :
    Int.tmod ((locals_at j).duty_cycle + 50) 150 = 50 * ((j % 3 : Nat) : Int) := by
  have h : j % 3 = 0 ∨ j % 3 = 1 ∨ j % 3 = 2 := by omega
  rcases h with h | h | h
  · have h2 : (j + 2) % 3 = 2 := by omega
    simp only [locals_at, h, h2]; decide
  · have h2 : (j + 2) % 3 = 0 := by omega
    simp only [locals_at, h, h2]; decide
  · have h2 : (j + 2) % 3 = 1 := by omega
    simp only [locals_at, h, h2]; decide

theorem next_locals (j : Nat) :
    (⟨(((locals_at j).page_number + 1) % num_of_demo_pages) % 256,
      Int.tmod ((locals_at j).duty_cycle + 50) 150⟩ : Locals) = locals_at (j + 1) := by
  rw [next_page_number, next_duty_cycle]
  have h : (j + 1 + 2) % 3 = j % 3 := by omega
  simp only [locals_at, h]

/-- One iteration started with the locals of iteration `j` either returns
the locals of iteration `j + 1` or is blocked; in both cases it has made
the calls of iteration `j` and then some reads of the button. -/
theorem loop_body_at (env : Env) (j : Nat) (w : World) :
    ∃ page, ledPageArray[j % 3]? = some page ∧
      loop_body env (locals_at j) w =
        match wait_for_switch_press_and_release env
            ⟨w.samples, w.trace
              ++ [.cyhal_pwm_set_duty_cycle (50 * ((j % 3 : Nat) : Int)) 1,
                  .cyhal_pwm_start]
              ++ page
              ++ [.mtb_e2271cs021_show_frame .MTB_E2271CS021_FULL_2STAGE true]⟩ with
        | .ret _ w1 => .ret (locals_at (j + 1)) w1
        | .blocked w1 => .blocked w1
        | .fault w1 => .fault w1
        | .timeout w1 => .timeout w1 := by
  obtain ⟨page, hp, -⟩ := ledPageArray_at j
  refine ⟨page, hp, ?_⟩
  rw [loop_body_eq env (locals_at j) w page hp, next_locals, next_duty_cycle]

theorem loop_body_locals (env : Env) (j : Nat) (w w1 : World) (l : Locals)
    (h : loop_body env (locals_at j) w = .ret l w1) : l = locals_at (j + 1) := by
  obtain ⟨page, -, e⟩ := loop_body_at env j w
  rw [e] at h
  split at h <;> cases h
  rfl

theorem loop_iterations_locals (env : Env) (k : Nat) : ∀ (j : Nat) (w w1 : World)
    (l : Locals), loop_iterations env k (locals_at j) w = .ret l w1 →
    l = locals_at (j + k) := by
  induction k with
  | zero =>
    intro j w w1 l h
    cases h
    rfl
  | succ k ih =>
    intro j w w1 l h
    simp only [loop_iterations, bind_apply, Task.bind] at h
    split at h
    · rename_i l1 w2 hb
      have := loop_body_locals env j w w2 l1 hb
      subst this
      have := ih (j + 1) w2 w1 l h
      rw [this]
      congr 1
      omega
    all_goals cases h

/-- The `for(;;)` with `k + f` unrollings is its first `k` iterations
followed by the `for(;;)` with `f` unrollings. -/
theorem page_loop_split (env : Env) (k f : Nat) : ∀ (l : Locals) (w : World),
    page_loop env (k + f) l w = (loop_iterations env k l >>= page_loop env f) w := by
  induction k with
  | zero =>
    intro l w
    simp [loop_iterations, bind_apply, Task.bind, pure]
  | succ k ih =>
    intro l w
    rw [Nat.succ_add]
    simp only [page_loop, loop_iterations, bind_apply, Task.bind]
    cases loop_body env l w with
    | ret l1 w1 =>
      simp only []
      rw [ih l1 w1]
      rfl
    | blocked w1 => rfl
    | fault w1 => rfl
    | timeout w1 => rfl

/-- The button wait reads some first `n` samples and nothing else; when it
is blocked it has read them all; it never faults. -/
theorem wait_outcome (env : Env) (s : List Bool) (tr : List Call) :
    ∃ n, n ≤ s.length ∧
      (wait_for_switch_press_and_release env ⟨s, tr⟩
          = .ret () ⟨s.drop n, tr ++ (s.take n).map .cyhal_gpio_read⟩
        ∨ (n = s.length ∧ wait_for_switch_press_and_release env ⟨s, tr⟩
          = .blocked ⟨s.drop n, tr ++ (s.take n).map .cyhal_gpio_read⟩)) := by
  rcases wait_cases env s tr with ⟨pre, mid, rest, hs, hpre, hmid, hret⟩ | ⟨-, hblk⟩
  · obtain ⟨-, -, -, -, e5, e6⟩ :=
      press_release_shape env.CYBSP_BTN_PRESSED pre mid rest hpre hmid
    rw [← hs] at e5 e6
    refine ⟨pre.length + 1 + mid.length + 1, ?_, Or.inl ?_⟩
    · rw [hs]; simp; omega
    · rw [e5, e6]; exact hret
  · refine ⟨s.length, le_refl _, Or.inr ⟨rfl, ?_⟩⟩
    rw [List.drop_length, List.take_length]
    exact hblk

/-- The world in which iteration `j` of the page loop ends. -/
theorem loop_body_world (env : Env) (j : Nat) (w : World) :
    ∃ page n, ledPageArray[j % 3]? = some page ∧ n ≤ w.samples.length ∧
      (loop_body env (locals_at j) w).world
        = ⟨w.samples.drop n, w.trace
            ++ [.cyhal_pwm_set_duty_cycle (50 * ((j % 3 : Nat) : Int)) 1,
                .cyhal_pwm_start]
            ++ page
            ++ [.mtb_e2271cs021_show_frame .MTB_E2271CS021_FULL_2STAGE true]
            ++ (w.samples.take n).map .cyhal_gpio_read⟩
      ∧ ((∃ w1, loop_body env (locals_at j) w = .ret (locals_at (j + 1)) w1)
          ∨ ∃ w1, loop_body env (locals_at j) w = .blocked w1) := by
  obtain ⟨page, hp, e⟩ := loop_body_at env j w
  obtain ⟨n, hn, hw⟩ := wait_outcome env w.samples (w.trace
      ++ [.cyhal_pwm_set_duty_cycle (50 * ((j % 3 : Nat) : Int)) 1, .cyhal_pwm_start]
      ++ page
      ++ [.mtb_e2271cs021_show_frame .MTB_E2271CS021_FULL_2STAGE true])
  refine ⟨page, n, hp, hn, ?_⟩
  rcases hw with hw | ⟨-, hw⟩
  · rw [hw] at e
    rw [e]
    exact ⟨rfl, Or.inl ⟨_, rfl⟩⟩
  · rw [hw] at e
    rw [e]
    exact ⟨rfl, Or.inr ⟨_, rfl⟩⟩

theorem led_pages_distinct :
    show_led_on ≠ show_led_blink ∧ show_led_blink ≠ show_led_off
      ∧ show_led_off ≠ show_led_on := by
  decide

/-- A pressed sample immediately followed by a non-pressed one ends the
button wait. -/
theorem wait_press_release (env : Env) (rest : List Bool) (tr : List Call) :
    wait_for_switch_press_and_release env
        ⟨env.CYBSP_BTN_PRESSED :: (!env.CYBSP_BTN_PRESSED) :: rest, tr⟩
      = .ret () ⟨rest, tr ++ [.cyhal_gpio_read env.CYBSP_BTN_PRESSED,
          .cyhal_gpio_read (!env.CYBSP_BTN_PRESSED)]⟩ := by
  cases hc : env.CYBSP_BTN_PRESSED <;>
    simp [wait_for_switch_press_and_release, wait_pressed_loop, wait_released_loop,
      bind_apply, Task.bind, hc]

/-- Every iteration of the page loop is reached on some sample sequence:
`k` press-and-release pairs carry the loop through `k` iterations. -/
theorem loop_iterations_reachable (env : Env) (k : Nat) : ∀ (j : Nat) (tr : List Call),
    ∃ w1, loop_iterations env k (locals_at j)
        ⟨(List.replicate k [env.CYBSP_BTN_PRESSED, !env.CYBSP_BTN_PRESSED]).flatten, tr⟩
      = .ret (locals_at (j + k)) w1 := by
  induction k with
  | zero =>
    intro j tr
    exact ⟨_, rfl⟩
  | succ k ih =>
    intro j tr
    obtain ⟨page, -, e⟩ := loop_body_at env j
      ⟨(List.replicate (k + 1)
        [env.CYBSP_BTN_PRESSED, !env.CYBSP_BTN_PRESSED]).flatten, tr⟩
    have hs : (List.replicate (k + 1)
          [env.CYBSP_BTN_PRESSED, !env.CYBSP_BTN_PRESSED]).flatten
        = env.CYBSP_BTN_PRESSED :: (!env.CYBSP_BTN_PRESSED)
          :: (List.replicate k [env.CYBSP_BTN_PRESSED, !env.CYBSP_BTN_PRESSED]).flatten := by
      simp [List.replicate_succ]
    rw [hs] at e ⊢
    simp only [] at e
    rw [wait_press_release] at e
    obtain ⟨w1, hw1⟩ := ih (j + 1) (tr
      ++ [.cyhal_pwm_set_duty_cycle (50 * ((j % 3 : Nat) : Int)) 1, .cyhal_pwm_start]
      ++ page
      ++ [.mtb_e2271cs021_show_frame .MTB_E2271CS021_FULL_2STAGE true]
      ++ [.cyhal_gpio_read env.CYBSP_BTN_PRESSED,
          .cyhal_gpio_read (!env.CYBSP_BTN_PRESSED)])
    refine ⟨w1, ?_⟩
    simp only [loop_iterations, bind_apply, Task.bind, e]
    rw [hw1]
    congr 2
    omega

/-! ## The task as a whole -/

/-- With both SPI calls succeeding the task makes the calls of
`calls_before_first_wait`, waits once for the button and enters the page
loop. -/
theorem eInk_task_eq (env : Env) (fuel : Nat) (w : World)
    (h1 : env.CY_RSLT_SUCCESS = env.spi_init_result)
    (h2 : env.CY_RSLT_SUCCESS = env.spi_set_frequency_result) :
    eInk_task env fuel w =
      match wait_for_switch_press_and_release env
          ⟨w.samples, w.trace ++ calls_before_first_wait⟩ with
      | .ret _ w1 => page_loop env fuel loop_entry w1
      | .blocked w1 => .blocked w1
      | .fault w1 => .fault w1
      | .timeout w1 => .timeout w1 := by
  unfold eInk_task
  simp only [call_bind, calls_bind, if_pos h1, if_pos h2]
  simp only [bind_apply, Task.bind]
  have e : ((((((((((((((w.trace ++ [Call.cyhal_gpio_init]) ++ [Call.cyhal_pwm_init])
      ++ [Call.cyhal_pwm_set_duty_cycle 100 1]) ++ [Call.cyhal_pwm_start])
      ++ [Call.cyhal_spi_init]) ++ [Call.cyhal_spi_set_frequency SPI_BAUD_RATE_HZ])
      ++ [Call.mtb_e2271cs021_init])
      ++ [Call.mtb_e2271cs021_set_temp_factor AMBIENT_TEMPERATURE_C])
      ++ [Call.LCD_GetDisplayBuffer]) ++ [Call.GUI_Init]) ++ show_startup_screen)
      ++ [Call.mtb_e2271cs021_show_frame FrameMode.MTB_E2271CS021_FULL_4STAGE true])
      ++ [Call.vTaskDelay DELAY_AFTER_STARTUP_SCREEN_MS]) ++ show_instructions_screen)
      ++ [Call.mtb_e2271cs021_show_frame FrameMode.MTB_E2271CS021_FULL_4STAGE true]
      = w.trace ++ calls_before_first_wait := by
    simp [calls_before_first_wait, SPI_BAUD_RATE_HZ, AMBIENT_TEMPERATURE_C,
      DELAY_AFTER_STARTUP_SCREEN_MS]
  rw [e]
  cases wait_for_switch_press_and_release env _ <;> rfl

theorem eInk_task_spi_init_failed (env : Env) (fuel : Nat) (w : World)
    (h1 : env.CY_RSLT_SUCCESS ≠ env.spi_init_result) :
    eInk_task env fuel w = .ret () ⟨w.samples, w.trace ++
      [.cyhal_gpio_init, .cyhal_pwm_init, .cyhal_pwm_set_duty_cycle 100 1,
       .cyhal_pwm_start, .cyhal_spi_init]⟩ := by
  unfold eInk_task
  simp only [call_bind, if_neg h1]
  simp [pure_apply]

theorem eInk_task_spi_set_frequency_failed (env : Env) (fuel : Nat) (w : World)
    (h1 : env.CY_RSLT_SUCCESS = env.spi_init_result)
    (h2 : env.CY_RSLT_SUCCESS ≠ env.spi_set_frequency_result) :
    eInk_task env fuel w = .ret () ⟨w.samples, w.trace ++
      [.cyhal_gpio_init, .cyhal_pwm_init, .cyhal_pwm_set_duty_cycle 100 1,
       .cyhal_pwm_start, .cyhal_spi_init, .cyhal_spi_set_frequency 20000000]⟩ := by
  unfold eInk_task
  simp only [call_bind, if_pos h1, if_neg h2]
  simp [pure_apply, SPI_BAUD_RATE_HZ]

/-! ## C1 : the page index cycles through the three LED pages -/

/-- C1.  Let the first `k` iterations of the page loop of `eInk_task` have
completed, so that iteration `k` (counting from 0) starts with the locals
`l` in the world `w1`.  Then `page_number = k mod 3`, which is less than
`num_of_demo_pages = 3`; the lookup `ledPageArray[page_number]` succeeds and
yields `show_led_on`, `show_led_blink`, `show_led_off` for `k mod 3 = 0, 1,
2` (three different pages); iteration `k` calls that page (its calls appear
in the trace of the iteration) and does not fault; and the `for(;;)` itself
is in that state after `k` iterations.  Iteration `k` is reached on some
sample sequence, whatever `k`. -/
theorem page_number_cycles (env : Env) (k : Nat) (w w1 : World) (l : Locals)
    (h : loop_iterations env k loop_entry w = .ret l w1) :
    l.page_number = k % 3
    ∧ l.page_number < num_of_demo_pages
    ∧ num_of_demo_pages = 3
    ∧ (∃ s l2 w2, loop_iterations env k loop_entry ⟨s, []⟩ = .ret l2 w2)
    ∧ (∀ f, page_loop env (k + f) loop_entry w = page_loop env f l w1)
    ∧ (show_led_on ≠ show_led_blink ∧ show_led_blink ≠ show_led_off
        ∧ show_led_off ≠ show_led_on)
    ∧ ∃ page n, ledPageArray[l.page_number]? = some page
        ∧ (k % 3 = 0 → page = show_led_on)
        ∧ (k % 3 = 1 → page = show_led_blink)
        ∧ (k % 3 = 2 → page = show_led_off)
        ∧ n ≤ w1.samples.length
        ∧ (loop_body env l w1).world
            = ⟨w1.samples.drop n, w1.trace
                ++ [.cyhal_pwm_set_duty_cycle (Int.tmod (l.duty_cycle + 50) 150) 1,
                    .cyhal_pwm_start]
                ++ page
                ++ [.mtb_e2271cs021_show_frame .MTB_E2271CS021_FULL_2STAGE true]
                ++ (w1.samples.take n).map .cyhal_gpio_read⟩
        ∧ ∀ w2, loop_body env l w1 ≠ .fault w2 := by
  rw [← locals_at_zero] at h
  have hl := loop_iterations_locals env k 0 w w1 l h
  rw [Nat.zero_add] at hl
  subst hl
  have hlt : k % 3 < 3 := Nat.mod_lt _ (by decide)
  refine ⟨rfl, hlt, rfl, ?_, ?_, led_pages_distinct, ?_⟩
  · obtain ⟨w2, hw2⟩ := loop_iterations_reachable env k 0 []
    rw [locals_at_zero] at hw2
    exact ⟨_, _, _, hw2⟩
  · intro f
    rw [page_loop_split, ← locals_at_zero, bind_of_ret h]
  · obtain ⟨page, h0, h1, h2, h3⟩ := ledPageArray_at k
    obtain ⟨page2, n, hp, hn, hw, hr⟩ := loop_body_world env k w1
    have hpage : page2 = page := Option.some.inj (hp.symm.trans h0)
    subst hpage
    refine ⟨page2, n, h0, h1, h2, h3, hn, ?_, ?_⟩
    · rw [hw, next_duty_cycle]
    · intro w2 hf
      rcases hr with ⟨w3, hr⟩ | ⟨w3, hr⟩ <;> rw [hr] at hf <;> cases hf

/-- C1 at a concrete input: after four press-and-release cycles inside the
loop, iteration 4 starts with `page_number = 1`. -/
theorem page_number_cycles_witness :
    ∃ l w1, loop_iterations kit_env 4 loop_entry
        ⟨[false, true, false, true, false, true, false, true], []⟩ = .ret l w1
      ∧ l.page_number = 1 :=
  ⟨_, _, rfl, (page_number_cycles kit_env 4
    ⟨[false, true, false, true, false, true, false, true], []⟩ _ _ rfl).1⟩

/-! ## The duty cycles in a trace -/

theorem duty_cycles_append (a b : List Call) :
    duty_cycles (a ++ b) = duty_cycles a ++ duty_cycles b := by
  simp [duty_cycles, List.filterMap_append]

theorem duty_cycles_reads (s : List Bool) :
    duty_cycles (s.map .cyhal_gpio_read) = [] := by
  induction s with
  | nil => rfl
  | cons v rest ih =>
    simp only [duty_cycles, List.map_cons, List.filterMap_cons] at ih ⊢
    exact ih

theorem ledPageArray_cases {i : Nat} {page : List Call}
    (h : ledPageArray[i]? = some page) :
    page = show_led_on ∨ page = show_led_blink ∨ page = show_led_off := by
  have := List.mem_iff_getElem?.mpr ⟨i, h⟩
  simpa [ledPageArray] using this

theorem duty_cycles_page {i : Nat} {page : List Call}
    (h : ledPageArray[i]? = some page) : duty_cycles page = [] := by
  rcases ledPageArray_cases h with e | e | e <;> subst e <;> rfl

/-- The calls of one iteration set the duty cycle once. -/
theorem duty_cycles_iteration {i : Nat} {page : List Call}
    (h : ledPageArray[i]? = some page) (d : Int) (s : List Bool) :
    duty_cycles ([.cyhal_pwm_set_duty_cycle d 1, .cyhal_pwm_start]
        ++ page
        ++ [.mtb_e2271cs021_show_frame .MTB_E2271CS021_FULL_2STAGE true]
        ++ s.map .cyhal_gpio_read) = [d] := by
  rw [duty_cycles_append, duty_cycles_append, duty_cycles_append, duty_cycles_reads,
    duty_cycles_page h]
  rfl

theorem duty_value_cases (j : Nat) :
    (50 * ((j % 3 : Nat) : Int) = 0 ∨ 50 * ((j % 3 : Nat) : Int) = 50
      ∨ 50 * ((j % 3 : Nat) : Int) = 100) := by
  omega

/-- Whatever the unrolling bound, the page loop only appends to the trace,
and the duty cycles it sets are 0, 50 or 100. -/
theorem page_loop_trace (env : Env) (fuel : Nat) : ∀ (j : Nat) (w : World),
    ∃ ext, (page_loop env fuel (locals_at j) w).world.trace = w.trace ++ ext
      ∧ ∀ x ∈ duty_cycles ext, x = 0 ∨ x = 50 ∨ x = 100 := by
  induction fuel with
  | zero =>
    intro j w
    exact ⟨[], by simp [page_loop, Outcome.world], by simp [duty_cycles]⟩
  | succ fuel ih =>
    intro j w
    obtain ⟨page, n, hp, -, hw, hr⟩ := loop_body_world env j w
    have hd := duty_cycles_iteration hp (50 * ((j % 3 : Nat) : Int)) (w.samples.take n)
    rcases hr with ⟨w1, hr⟩ | ⟨w1, hr⟩
    · rw [hr] at hw
      have hw1 : w1 = _ := hw
      obtain ⟨ext, he, hx⟩ := ih (j + 1) w1
      refine ⟨([.cyhal_pwm_set_duty_cycle (50 * ((j % 3 : Nat) : Int)) 1, .cyhal_pwm_start]
        ++ page
        ++ [.mtb_e2271cs021_show_frame .MTB_E2271CS021_FULL_2STAGE true]
        ++ (w.samples.take n).map .cyhal_gpio_read) ++ ext, ?_, ?_⟩
      · simp only [page_loop, bind_apply, Task.bind, hr]
        rw [he, hw1]
        simp only [List.append_assoc]
      · intro x hx2
        rw [duty_cycles_append, hd] at hx2
        rcases List.mem_append.mp hx2 with h | h
        · rw [List.mem_singleton.mp h]; exact duty_value_cases j
        · exact hx x h
    · rw [hr] at hw
      have hw1 : w1 = _ := hw
      refine ⟨([.cyhal_pwm_set_duty_cycle (50 * ((j % 3 : Nat) : Int)) 1, .cyhal_pwm_start]
        ++ page
        ++ [.mtb_e2271cs021_show_frame .MTB_E2271CS021_FULL_2STAGE true]
        ++ (w.samples.take n).map .cyhal_gpio_read), ?_, ?_⟩
      · simp only [page_loop, bind_apply, Task.bind, hr, Outcome.world]
        rw [hw1]
        simp only [List.append_assoc]
      · intro x hx2
        rw [hd] at hx2
        rw [List.mem_singleton.mp hx2]; exact duty_value_cases j

theorem calls_before_first_wait_split :
    calls_before_first_wait
      = [.cyhal_gpio_init, .cyhal_pwm_init, .cyhal_pwm_set_duty_cycle 100 1]
        ++ calls_before_first_wait.drop 3 := rfl

theorem duty_cycles_before_first_wait :
    duty_cycles (calls_before_first_wait.drop 3) = [] := rfl

/-- Every run of the task starts by setting the duty cycle to 100, and every
duty cycle it sets afterwards is 0, 50 or 100. -/
theorem eInk_task_trace (env : Env) (fuel : Nat) (w : World) :
    ∃ ext, (eInk_task env fuel w).world.trace
        = w.trace ++ [.cyhal_gpio_init, .cyhal_pwm_init, .cyhal_pwm_set_duty_cycle 100 1]
          ++ ext
      ∧ ∀ x ∈ duty_cycles ext, x = 0 ∨ x = 50 ∨ x = 100 := by
  by_cases h1 : env.CY_RSLT_SUCCESS = env.spi_init_result
  · by_cases h2 : env.CY_RSLT_SUCCESS = env.spi_set_frequency_result
    · rw [eInk_task_eq env fuel w h1 h2]
      obtain ⟨n, -, hw⟩ := wait_outcome env w.samples (w.trace ++ calls_before_first_wait)
      rcases hw with hw | ⟨-, hw⟩
      · rw [hw]
        obtain ⟨ext, he, hx⟩ := page_loop_trace env fuel 0
          ⟨w.samples.drop n, w.trace ++ calls_before_first_wait
            ++ (w.samples.take n).map .cyhal_gpio_read⟩
        rw [locals_at_zero] at he
        refine ⟨calls_before_first_wait.drop 3
          ++ (w.samples.take n).map .cyhal_gpio_read ++ ext, ?_, ?_⟩
        · simp only []
          rw [he]
          conv_lhs => rw [calls_before_first_wait_split]
          simp only [List.append_assoc]
        · intro x hx2
          rw [duty_cycles_append, duty_cycles_append, duty_cycles_before_first_wait,
            duty_cycles_reads] at hx2
          exact hx x hx2
      · rw [hw]
        refine ⟨calls_before_first_wait.drop 3
          ++ (w.samples.take n).map .cyhal_gpio_read, ?_, ?_⟩
        · simp only [Outcome.world]
          conv_lhs => rw [calls_before_first_wait_split]
          simp only [List.append_assoc]
        · intro x hx2
          rw [duty_cycles_append, duty_cycles_before_first_wait, duty_cycles_reads] at hx2
          cases hx2
    · rw [eInk_task_spi_set_frequency_failed env fuel w h1 h2]
      refine ⟨[.cyhal_pwm_start, .cyhal_spi_init, .cyhal_spi_set_frequency 20000000],
        by simp [Outcome.world], ?_⟩
      intro x hx2
      simp [duty_cycles] at hx2
  · rw [eInk_task_spi_init_failed env fuel w h1]
    refine ⟨[.cyhal_pwm_start, .cyhal_spi_init], by simp [Outcome.world], ?_⟩
    intro x hx2
    simp [duty_cycles] at hx2

/-! ## C2 : the duty cycle of an iteration is 50 times its page number -/

/-- C2.  Let the first `k` iterations of the page loop have completed, so
that iteration `k` starts with the locals `l` in the world `w1`.  Iteration
`k` passes exactly one duty cycle `d` to `cyhal_pwm_set_duty_cycle`, in the
same iteration in which it renders the page `ledPageArray[page_number]`, and
`d = 50 * page_number`: 0 with `show_led_on`, 50 with `show_led_blink`, 100
with `show_led_off`.  Moreover every run of `eInk_task` first sets the duty
cycle 100, and every duty cycle it sets afterwards is 0, 50 or 100. -/
theorem duty_cycle_matches_page (env : Env) (k : Nat) (w w1 : World) (l : Locals)
    (h : loop_iterations env k loop_entry w = .ret l w1) :
    (∃ page n d, ledPageArray[l.page_number]? = some page
        ∧ n ≤ w1.samples.length
        ∧ (loop_body env l w1).world.trace
            = w1.trace
                ++ [.cyhal_pwm_set_duty_cycle d 1, .cyhal_pwm_start]
                ++ page
                ++ [.mtb_e2271cs021_show_frame .MTB_E2271CS021_FULL_2STAGE true]
                ++ (w1.samples.take n).map .cyhal_gpio_read
        ∧ duty_cycles (loop_body env l w1).world.trace = duty_cycles w1.trace ++ [d]
        ∧ d = 50 * (l.page_number : Int)
        ∧ l.page_number = k % 3
        ∧ ((page = show_led_on ∧ d = 0) ∨ (page = show_led_blink ∧ d = 50)
            ∨ (page = show_led_off ∧ d = 100)))
    ∧ ∀ (fuel : Nat) (w0 : World),
        ∃ ext, (eInk_task env fuel w0).world.trace
            = w0.trace
              ++ [.cyhal_gpio_init, .cyhal_pwm_init, .cyhal_pwm_set_duty_cycle 100 1]
              ++ ext
          ∧ ∀ x ∈ duty_cycles ext, x = 0 ∨ x = 50 ∨ x = 100 := by
  refine ⟨?_, eInk_task_trace env⟩
  rw [← locals_at_zero] at h
  have hl := loop_iterations_locals env k 0 w w1 l h
  rw [Nat.zero_add] at hl
  subst hl
  obtain ⟨page, h0, h1, h2, h3⟩ := ledPageArray_at k
  obtain ⟨page2, n, hp, hn, hw, -⟩ := loop_body_world env k w1
  have hpage : page2 = page := Option.some.inj (hp.symm.trans h0)
  subst hpage
  refine ⟨page2, n, 50 * ((k % 3 : Nat) : Int), h0, hn, by rw [hw], ?_, rfl, rfl, ?_⟩
  · rw [hw]
    simp only [List.append_assoc]
    rw [duty_cycles_append]
    have := duty_cycles_iteration hp (50 * ((k % 3 : Nat) : Int)) (w1.samples.take n)
    simp only [List.append_assoc] at this
    rw [this]
  · have hc : k % 3 = 0 ∨ k % 3 = 1 ∨ k % 3 = 2 := by omega
    rcases hc with hc | hc | hc
    · exact Or.inl ⟨h1 hc, by rw [hc]; rfl⟩
    · exact Or.inr (Or.inl ⟨h2 hc, by rw [hc]; rfl⟩)
    · exact Or.inr (Or.inr ⟨h3 hc, by rw [hc]; rfl⟩)

/-- C2 at a concrete input: after two press-and-release cycles inside the
loop, iteration 2 sets the duty cycle 100 and renders `show_led_off`. -/
theorem duty_cycle_matches_page_witness :
    ∃ l w1, loop_iterations kit_env 2 loop_entry
        ⟨[false, true, false, true], []⟩ = .ret l w1
      ∧ ∃ page n d, ledPageArray[l.page_number]? = some page
        ∧ n ≤ w1.samples.length
        ∧ (loop_body kit_env l w1).world.trace
            = w1.trace
                ++ [.cyhal_pwm_set_duty_cycle d 1, .cyhal_pwm_start]
                ++ page
                ++ [.mtb_e2271cs021_show_frame .MTB_E2271CS021_FULL_2STAGE true]
                ++ (w1.samples.take n).map .cyhal_gpio_read
        ∧ duty_cycles (loop_body kit_env l w1).world.trace = duty_cycles w1.trace ++ [d]
        ∧ d = 50 * (l.page_number : Int)
        ∧ l.page_number = 2 % 3
        ∧ ((page = show_led_on ∧ d = 0) ∨ (page = show_led_blink ∧ d = 50)
            ∨ (page = show_led_off ∧ d = 100)) :=
  ⟨_, _, rfl, (duty_cycle_matches_page kit_env 2
    ⟨[false, true, false, true], []⟩ _ _ rfl).1⟩

/-! ## C4 : what happens before the page loop -/

/-- C4.  When `cyhal_spi_init` and `cyhal_spi_set_frequency` both succeed,
`eInk_task` started in any world `w` first makes, in this order, the calls
of the peripheral, driver and GUI initialisation, of `show_startup_screen`,
a full 4-stage `mtb_e2271cs021_show_frame`, `vTaskDelay` of
`DELAY_AFTER_STARTUP_SCREEN_MS = 2000`, the calls of
`show_instructions_screen` and a second full 4-stage refresh; then it runs
one `wait_for_switch_press_and_release`, which reads some first `n` samples;
if that wait returns, the rest of the task is the page loop entered with
`page_number = 0` and `duty_cycle = 100`, and otherwise the task is blocked
there and has made no further call. -/
theorem startup_sequence_then_page_loop (env : Env) (fuel : Nat) (w : World)
    (h1 : env.CY_RSLT_SUCCESS = env.spi_init_result)
    (h2 : env.CY_RSLT_SUCCESS = env.spi_set_frequency_result) :
    DELAY_AFTER_STARTUP_SCREEN_MS = 2000
    ∧ calls_before_first_wait
        = [ .cyhal_gpio_init, .cyhal_pwm_init, .cyhal_pwm_set_duty_cycle 100 1,
            .cyhal_pwm_start, .cyhal_spi_init,
            .cyhal_spi_set_frequency SPI_BAUD_RATE_HZ,
            .mtb_e2271cs021_init,
            .mtb_e2271cs021_set_temp_factor AMBIENT_TEMPERATURE_C,
            .LCD_GetDisplayBuffer, .GUI_Init ]
          ++ show_startup_screen
          ++ [ .mtb_e2271cs021_show_frame .MTB_E2271CS021_FULL_4STAGE true,
               .vTaskDelay DELAY_AFTER_STARTUP_SCREEN_MS ]
          ++ show_instructions_screen
          ++ [ .mtb_e2271cs021_show_frame .MTB_E2271CS021_FULL_4STAGE true ]
    ∧ loop_entry = ⟨0, 100⟩
    ∧ ∃ n, n ≤ w.samples.length ∧
        ((wait_for_switch_press_and_release env
              ⟨w.samples, w.trace ++ calls_before_first_wait⟩
            = .ret () ⟨w.samples.drop n, w.trace ++ calls_before_first_wait
                ++ (w.samples.take n).map .cyhal_gpio_read⟩
          ∧ eInk_task env fuel w
            = page_loop env fuel loop_entry
                ⟨w.samples.drop n, w.trace ++ calls_before_first_wait
                  ++ (w.samples.take n).map .cyhal_gpio_read⟩)
        ∨ (n = w.samples.length
          ∧ wait_for_switch_press_and_release env
              ⟨w.samples, w.trace ++ calls_before_first_wait⟩
            = .blocked ⟨[], w.trace ++ calls_before_first_wait
                ++ w.samples.map .cyhal_gpio_read⟩
          ∧ eInk_task env fuel w
            = .blocked ⟨[], w.trace ++ calls_before_first_wait
                ++ w.samples.map .cyhal_gpio_read⟩)) := by
  refine ⟨rfl, rfl, rfl, ?_⟩
  obtain ⟨n, hn, hw⟩ := wait_outcome env w.samples (w.trace ++ calls_before_first_wait)
  refine ⟨n, hn, ?_⟩
  rcases hw with hw | ⟨hlen, hw⟩
  · left
    refine ⟨hw, ?_⟩
    rw [eInk_task_eq env fuel w h1 h2, hw]
  · right
    subst hlen
    rw [List.drop_length, List.take_length] at hw
    refine ⟨rfl, hw, ?_⟩
    rw [eInk_task_eq env fuel w h1 h2, hw]

/-- C4 at a concrete input: on the kit, with the samples pressed, released
and one unrolling of the loop. -/
theorem startup_sequence_then_page_loop_witness :
    kit_env.CY_RSLT_SUCCESS = kit_env.spi_init_result
    ∧ kit_env.CY_RSLT_SUCCESS = kit_env.spi_set_frequency_result
    ∧ ∃ n, n ≤ 2 ∧
        ((wait_for_switch_press_and_release kit_env
              ⟨[false, true], [] ++ calls_before_first_wait⟩
            = .ret () ⟨[false, true].drop n, [] ++ calls_before_first_wait
                ++ ([false, true].take n).map .cyhal_gpio_read⟩
          ∧ eInk_task kit_env 1 ⟨[false, true], []⟩
            = page_loop kit_env 1 loop_entry
                ⟨[false, true].drop n, [] ++ calls_before_first_wait
                  ++ ([false, true].take n).map .cyhal_gpio_read⟩)
        ∨ (n = 2
          ∧ wait_for_switch_press_and_release kit_env
              ⟨[false, true], [] ++ calls_before_first_wait⟩
            = .blocked ⟨[], [] ++ calls_before_first_wait
                ++ [false, true].map .cyhal_gpio_read⟩
          ∧ eInk_task kit_env 1 ⟨[false, true], []⟩
            = .blocked ⟨[], [] ++ calls_before_first_wait
                ++ [false, true].map .cyhal_gpio_read⟩)) :=
  ⟨rfl, rfl,
    (startup_sequence_then_page_loop kit_env 1 ⟨[false, true], []⟩ rfl rfl).2.2.2⟩

/-! ## C5 : the order of the steps inside one iteration -/

/-- C5, as stated, fails.  In iteration 0 on the kit, with the samples
pressed, released, the duty-cycle update is the first call of the
iteration: it comes before the page render (whose last call,
`GUI_FillPolygon`, is at position 13) and before the display refresh (at
position 14), not after them. -/
theorem duty_update_after_refresh_counterexample :
    (loop_body kit_env loop_entry ⟨[false, true], []⟩).world.trace
      = [.cyhal_pwm_set_duty_cycle 0 1, .cyhal_pwm_start] ++ show_led_on
        ++ [.mtb_e2271cs021_show_frame .MTB_E2271CS021_FULL_2STAGE true,
            .cyhal_gpio_read false, .cyhal_gpio_read true]
    ∧ List.indexOf (Call.cyhal_pwm_set_duty_cycle 0 1)
        (loop_body kit_env loop_entry ⟨[false, true], []⟩).world.trace = 0
    ∧ List.indexOf (Call.GUI_FillPolygon aPointTriangle 3 90 65)
        (loop_body kit_env loop_entry ⟨[false, true], []⟩).world.trace = 13
    ∧ List.indexOf (Call.mtb_e2271cs021_show_frame .MTB_E2271CS021_FULL_2STAGE true)
        (loop_body kit_env loop_entry ⟨[false, true], []⟩).world.trace = 14
    ∧ ¬ (List.indexOf (Call.mtb_e2271cs021_show_frame .MTB_E2271CS021_FULL_2STAGE true)
          (loop_body kit_env loop_entry ⟨[false, true], []⟩).world.trace
        < List.indexOf (Call.cyhal_pwm_set_duty_cycle 0 1)
          (loop_body kit_env loop_entry ⟨[false, true], []⟩).world.trace) := by
  decide

/-- C5, amended.  In every iteration of the page loop whose page lookup
succeeds, the steps happen in this order: update the LED duty cycle
(`cyhal_pwm_set_duty_cycle` with the new value, then `cyhal_pwm_start`),
render the page, refresh the display (full 2-stage), wait for the button
(reading some first `n` samples); the page index is advanced only after the
wait has returned, and if the wait does not return the iteration is blocked
after those same calls. -/
theorem loop_body_order (env : Env) (l : Locals) (w : World) (page : List Call)
    (hp : ledPageArray[l.page_number]? = some page) :
    ∃ n, n ≤ w.samples.length ∧
      (loop_body env l w
          = .ret ⟨((l.page_number + 1) % num_of_demo_pages) % 256,
                  Int.tmod (l.duty_cycle + 50) 150⟩
              ⟨w.samples.drop n, w.trace
                ++ [.cyhal_pwm_set_duty_cycle (Int.tmod (l.duty_cycle + 50) 150) 1,
                    .cyhal_pwm_start]
                ++ page
                ++ [.mtb_e2271cs021_show_frame .MTB_E2271CS021_FULL_2STAGE true]
                ++ (w.samples.take n).map .cyhal_gpio_read⟩
        ∨ (n = w.samples.length ∧ loop_body env l w
          = .blocked ⟨w.samples.drop n, w.trace
                ++ [.cyhal_pwm_set_duty_cycle (Int.tmod (l.duty_cycle + 50) 150) 1,
                    .cyhal_pwm_start]
                ++ page
                ++ [.mtb_e2271cs021_show_frame .MTB_E2271CS021_FULL_2STAGE true]
                ++ (w.samples.take n).map .cyhal_gpio_read⟩)) := by
  obtain ⟨n, hn, hw⟩ := wait_outcome env w.samples (w.trace
      ++ [.cyhal_pwm_set_duty_cycle (Int.tmod (l.duty_cycle + 50) 150) 1,
          .cyhal_pwm_start]
      ++ page
      ++ [.mtb_e2271cs021_show_frame .MTB_E2271CS021_FULL_2STAGE true])
  refine ⟨n, hn, ?_⟩
  rw [loop_body_eq env l w page hp]
  rcases hw with hw | ⟨hlen, hw⟩
  · left; rw [hw]
  · right; rw [hw]; exact ⟨hlen, rfl⟩

/-- C5, amended, at a concrete input: iteration 0 on the kit with the
samples pressed, released. -/
theorem loop_body_order_witness :
    ledPageArray[loop_entry.page_number]? = some show_led_on
    ∧ ∃ n, n ≤ 2 ∧
      (loop_body kit_env loop_entry ⟨[false, true], []⟩
          = .ret ⟨((loop_entry.page_number + 1) % num_of_demo_pages) % 256,
                  Int.tmod (loop_entry.duty_cycle + 50) 150⟩
              ⟨[false, true].drop n, []
                ++ [.cyhal_pwm_set_duty_cycle
                      (Int.tmod (loop_entry.duty_cycle + 50) 150) 1,
                    .cyhal_pwm_start]
                ++ show_led_on
                ++ [.mtb_e2271cs021_show_frame .MTB_E2271CS021_FULL_2STAGE true]
                ++ ([false, true].take n).map .cyhal_gpio_read⟩
        ∨ (n = 2 ∧ loop_body kit_env loop_entry ⟨[false, true], []⟩
          = .blocked ⟨[false, true].drop n, []
                ++ [.cyhal_pwm_set_duty_cycle
                      (Int.tmod (loop_entry.duty_cycle + 50) 150) 1,
                    .cyhal_pwm_start]
                ++ show_led_on
                ++ [.mtb_e2271cs021_show_frame .MTB_E2271CS021_FULL_2STAGE true]
                ++ ([false, true].take n).map .cyhal_gpio_read⟩)) :=
  ⟨rfl, loop_body_order kit_env loop_entry ⟨[false, true], []⟩ show_led_on rfl⟩

/-! ## C7 : the button is not debounced -/

/-- C7, as stated, fails.  On the kit a single pressed sample immediately
followed by a non-pressed sample makes `wait_for_switch_press_and_release`
return, and two such pairs make `eInk_task` render page 0 and then advance
to page 1. -/
theorem single_sample_press_counterexample :
    wait_for_switch_press_and_release kit_env ⟨[false, true], []⟩
      = .ret () ⟨[], [.cyhal_gpio_read false, .cyhal_gpio_read true]⟩
    ∧ eInk_task kit_env 2 ⟨[false, true, false, true], []⟩
      = .blocked ⟨[], calls_before_first_wait
          ++ [.cyhal_gpio_read false, .cyhal_gpio_read true]
          ++ [.cyhal_pwm_set_duty_cycle 0 1, .cyhal_pwm_start] ++ show_led_on
          ++ [.mtb_e2271cs021_show_frame .MTB_E2271CS021_FULL_2STAGE true]
          ++ [.cyhal_gpio_read false, .cyhal_gpio_read true]
          ++ [.cyhal_pwm_set_duty_cycle 50 1, .cyhal_pwm_start] ++ show_led_blink
          ++ [.mtb_e2271cs021_show_frame .MTB_E2271CS021_FULL_2STAGE true]⟩ := by
  decide

/-- C7, amended.  The button is not debounced: whatever follows, and on
every board, a single pressed sample immediately followed by a non-pressed
sample is enough for `wait_for_switch_press_and_release` to return, having
read just these two samples, and for iteration `j` of the page loop to end
and hand over to iteration `j + 1`, whose page number is `(j + 1) mod 3`. -/
theorem single_sample_press_advances (env : Env) (rest : List Bool) (tr : List Call)
    (j : Nat) :
    wait_for_switch_press_and_release env
        ⟨env.CYBSP_BTN_PRESSED :: (!env.CYBSP_BTN_PRESSED) :: rest, tr⟩
      = .ret () ⟨rest, tr ++ [.cyhal_gpio_read env.CYBSP_BTN_PRESSED,
          .cyhal_gpio_read (!env.CYBSP_BTN_PRESSED)]⟩
    ∧ (∃ page, ledPageArray[j % 3]? = some page
        ∧ loop_body env (locals_at j)
            ⟨env.CYBSP_BTN_PRESSED :: (!env.CYBSP_BTN_PRESSED) :: rest, tr⟩
          = .ret (locals_at (j + 1)) ⟨rest, tr
              ++ [.cyhal_pwm_set_duty_cycle (50 * ((j % 3 : Nat) : Int)) 1,
                  .cyhal_pwm_start]
              ++ page
              ++ [.mtb_e2271cs021_show_frame .MTB_E2271CS021_FULL_2STAGE true]
              ++ [.cyhal_gpio_read env.CYBSP_BTN_PRESSED,
                  .cyhal_gpio_read (!env.CYBSP_BTN_PRESSED)]⟩)
    ∧ (locals_at j).page_number = j % 3
    ∧ (locals_at (j + 1)).page_number = (j + 1) % 3 := by
  refine ⟨wait_press_release env rest tr, ?_, rfl, rfl⟩
  obtain ⟨page, hp, e⟩ := loop_body_at env j
    ⟨env.CYBSP_BTN_PRESSED :: (!env.CYBSP_BTN_PRESSED) :: rest, tr⟩
  refine ⟨page, hp, ?_⟩
  rw [e, wait_press_release]

/-! ## C8 : the text of the startup screen -/

/-- C8 on the code.  The strings `show_startup_screen` draws, from top to
bottom and joined by single spaces, read "CYPRESS EMWIN GRAPHICS EINK
DISPLAY DEMO"; this is not the text "CYPRESS EMWIN GRAPHICS DEMO EINK
DISPLAY" that the header of the file announces. -/
theorem startup_screen_text :
    screen_text show_startup_screen = "CYPRESS EMWIN GRAPHICS EINK DISPLAY DEMO"
    ∧ screen_text show_startup_screen ≠ "CYPRESS EMWIN GRAPHICS DEMO EINK DISPLAY" := by
  decide

/-! ## Counting press-and-release cycles -/

theorem cycles_not_pressed_cons (env : Env) (t : List Bool) :
    press_release_cycles env ((!env.CYBSP_BTN_PRESSED) :: t)
      = press_release_cycles env t := by
  cases t with
  | nil => rfl
  | cons b r =>
    simp [press_release_cycles, bool_not_ne_self]

theorem cycles_pressed_pressed (env : Env) (t : List Bool) :
    press_release_cycles env (env.CYBSP_BTN_PRESSED :: env.CYBSP_BTN_PRESSED :: t)
      = press_release_cycles env (env.CYBSP_BTN_PRESSED :: t) := by
  simp [press_release_cycles]

theorem cycles_pressed_released (env : Env) (t : List Bool) :
    press_release_cycles env (env.CYBSP_BTN_PRESSED :: (!env.CYBSP_BTN_PRESSED) :: t)
      = press_release_cycles env t + 1 := by
  rw [press_release_cycles, cycles_not_pressed_cons]
  simp [bool_not_ne_self, Nat.add_comm]

theorem cycles_skip_not_pressed (env : Env) (pre t : List Bool)
    (hpre : ∀ v ∈ pre, v = !env.CYBSP_BTN_PRESSED) :
    press_release_cycles env (pre ++ t) = press_release_cycles env t := by
  induction pre with
  | nil => rfl
  | cons v pre ih =>
    have hv := hpre v (List.mem_cons_self _ _)
    subst hv
    rw [List.cons_append, cycles_not_pressed_cons]
    exact ih fun x hx => hpre x (List.mem_cons_of_mem _ hx)

theorem cycles_pressed_run_released (env : Env) (mid rest : List Bool)
    (hmid : ∀ v ∈ mid, v = env.CYBSP_BTN_PRESSED) :
    press_release_cycles env
        (env.CYBSP_BTN_PRESSED :: (mid ++ (!env.CYBSP_BTN_PRESSED) :: rest))
      = press_release_cycles env rest + 1 := by
  induction mid with
  | nil => exact cycles_pressed_released env rest
  | cons v mid ih =>
    have hv := hmid v (List.mem_cons_self _ _)
    rw [hv, List.cons_append, cycles_pressed_pressed]
    exact ih fun x hx => hmid x (List.mem_cons_of_mem _ hx)

theorem cycles_pressed_run (env : Env) (mid : List Bool)
    (hmid : ∀ v ∈ mid, v = env.CYBSP_BTN_PRESSED) :
    press_release_cycles env (env.CYBSP_BTN_PRESSED :: mid) = 0 := by
  induction mid with
  | nil => rfl
  | cons v mid ih =>
    have hv := hmid v (List.mem_cons_self _ _)
    rw [hv, cycles_pressed_pressed]
    exact ih fun x hx => hmid x (List.mem_cons_of_mem _ hx)

/-- The button wait is blocked exactly on the sample sequences without a
complete cycle, and otherwise consumes one cycle. -/
theorem wait_cycles (env : Env) (s : List Bool) (tr : List Call) :
    (press_release_cycles env s = 0
        ∧ wait_for_switch_press_and_release env ⟨s, tr⟩
          = .blocked ⟨[], tr ++ s.map .cyhal_gpio_read⟩)
    ∨ ∃ consumed rest, s = consumed ++ rest
        ∧ press_release_cycles env s = press_release_cycles env rest + 1
        ∧ wait_for_switch_press_and_release env ⟨s, tr⟩
          = .ret () ⟨rest, tr ++ consumed.map .cyhal_gpio_read⟩ := by
  rcases wait_cases env s tr with ⟨pre, mid, rest, hs, hpre, hmid, hret⟩ | ⟨hshape, hblk⟩
  · right
    refine ⟨pre ++ env.CYBSP_BTN_PRESSED :: (mid ++ [!env.CYBSP_BTN_PRESSED]), rest,
      by rw [hs]; simp, ?_, hret⟩
    rw [hs, cycles_skip_not_pressed env pre _ hpre,
      cycles_pressed_run_released env mid rest hmid]
  · left
    refine ⟨?_, hblk⟩
    rcases hshape with hall | ⟨pre, mid, hs, hpre, hmid⟩
    · have := cycles_skip_not_pressed env s [] hall
      rw [List.append_nil] at this
      rw [this]; rfl
    · rw [hs, cycles_skip_not_pressed env pre _ hpre, cycles_pressed_run env mid hmid]

/-! ## Splitting a trace into button reads and other calls -/

theorem button_reads_append (a b : List Call) :
    button_reads (a ++ b) = button_reads a ++ button_reads b := by
  simp [button_reads, List.filter_append]

theorem without_button_reads_append (a b : List Call) :
    without_button_reads (a ++ b) = without_button_reads a ++ without_button_reads b := by
  simp [without_button_reads, List.filter_append]

theorem button_reads_map (s : List Bool) :
    button_reads (s.map .cyhal_gpio_read) = s.map .cyhal_gpio_read := by
  induction s with
  | nil => rfl
  | cons v rest ih =>
    simp only [button_reads, List.map_cons, List.filter_cons] at ih ⊢
    simp [ih]

theorem without_button_reads_map (s : List Bool) :
    without_button_reads (s.map .cyhal_gpio_read) = [] := by
  induction s with
  | nil => rfl
  | cons v rest ih =>
    simp only [without_button_reads, List.map_cons, List.filter_cons] at ih ⊢
    simp [ih]

theorem led_page_calls_mod (j : Nat) : led_page_calls j = led_page_calls (j % 3) := by
  unfold led_page_calls
  rw [Nat.mod_mod]

theorem led_page_calls_no_reads (j : Nat) :
    button_reads (led_page_calls j) = []
      ∧ without_button_reads (led_page_calls j) = led_page_calls j := by
  rw [led_page_calls_mod]
  have h : j % 3 = 0 ∨ j % 3 = 1 ∨ j % 3 = 2 := by omega
  rcases h with h | h | h <;> rw [h] <;> decide

theorem calls_before_first_wait_no_reads :
    button_reads calls_before_first_wait = []
      ∧ without_button_reads calls_before_first_wait = calls_before_first_wait := by
  decide

theorem flatMap_range_succ (f : Nat → List Call) (j m : Nat) :
    (List.range (m + 1)).flatMap (fun i => f (j + i))
      = f j ++ (List.range m).flatMap (fun i => f (j + 1 + i)) := by
  rw [List.range_succ_eq_map, List.flatMap_cons, List.flatMap_map]
  have h : (fun i => f (j + Nat.succ i)) = (fun i => f (j + 1 + i)) := by
    funext i
    congr 1
    omega
  show f (j + 0) ++ (List.range m).flatMap (fun i => f (j + Nat.succ i)) = _
  rw [h]
  rfl

/-- Entered with the locals of iteration `j` on samples that hold `m`
complete cycles, the page loop puts the `m + 1` pages `j, ..., j + m` on the
display, reads every sample and is then blocked in the button wait. -/
theorem page_loop_run (env : Env) (m : Nat) : ∀ (fuel j : Nat) (s : List Bool)
    (tr : List Call), press_release_cycles env s = m → m < fuel →
    ∃ tr1, page_loop env fuel (locals_at j) ⟨s, tr⟩ = .blocked ⟨[], tr1⟩
      ∧ button_reads tr1 = button_reads tr ++ s.map .cyhal_gpio_read
      ∧ without_button_reads tr1 = without_button_reads tr
          ++ (List.range (m + 1)).flatMap (fun i => led_page_calls (j + i)) := by
  induction m with
  | zero =>
    intro fuel j s tr hc hf
    obtain ⟨f, rfl⟩ : ∃ f, fuel = f + 1 := ⟨fuel - 1, by omega⟩
    obtain ⟨page, hp, e⟩ := loop_body_at env j ⟨s, tr⟩
    have hcalls : led_page_calls j
        = [.cyhal_pwm_set_duty_cycle (50 * ((j % 3 : Nat) : Int)) 1, .cyhal_pwm_start]
          ++ page ++ [.mtb_e2271cs021_show_frame .MTB_E2271CS021_FULL_2STAGE true] := by
      simp [led_page_calls, hp]
    have e2 : loop_body env (locals_at j) ⟨s, tr⟩ =
        match wait_for_switch_press_and_release env ⟨s, tr ++ led_page_calls j⟩ with
        | .ret _ w1 => .ret (locals_at (j + 1)) w1
        | .blocked w1 => .blocked w1
        | .fault w1 => .fault w1
        | .timeout w1 => .timeout w1 := by
      rw [e, hcalls]; simp only [List.append_assoc]
    rcases wait_cycles env s (tr ++ led_page_calls j) with ⟨-, hb⟩ | ⟨c, r, -, hc2, -⟩
    · rw [hb] at e2
      refine ⟨tr ++ led_page_calls j ++ s.map .cyhal_gpio_read, ?_, ?_, ?_⟩
      · simp only [page_loop, bind_apply, Task.bind, e2]
      · rw [button_reads_append, button_reads_append, (led_page_calls_no_reads j).1,
          button_reads_map, List.append_nil]
      · rw [without_button_reads_append, without_button_reads_append,
          (led_page_calls_no_reads j).2, without_button_reads_map, List.append_nil,
          flatMap_range_succ led_page_calls j 0]
        simp
    · omega
  | succ m ih =>
    intro fuel j s tr hc hf
    obtain ⟨f, rfl⟩ : ∃ f, fuel = f + 1 := ⟨fuel - 1, by omega⟩
    obtain ⟨page, hp, e⟩ := loop_body_at env j ⟨s, tr⟩
    have hcalls : led_page_calls j
        = [.cyhal_pwm_set_duty_cycle (50 * ((j % 3 : Nat) : Int)) 1, .cyhal_pwm_start]
          ++ page ++ [.mtb_e2271cs021_show_frame .MTB_E2271CS021_FULL_2STAGE true] := by
      simp [led_page_calls, hp]
    have e2 : loop_body env (locals_at j) ⟨s, tr⟩ =
        match wait_for_switch_press_and_release env ⟨s, tr ++ led_page_calls j⟩ with
        | .ret _ w1 => .ret (locals_at (j + 1)) w1
        | .blocked w1 => .blocked w1
        | .fault w1 => .fault w1
        | .timeout w1 => .timeout w1 := by
      rw [e, hcalls]; simp only [List.append_assoc]
    rcases wait_cycles env s (tr ++ led_page_calls j) with ⟨h0, -⟩ | ⟨c, r, hs, hc2, hr⟩
    · omega
    · rw [hr] at e2
      obtain ⟨tr1, h1, h2, h3⟩ := ih f (j + 1) r
        (tr ++ led_page_calls j ++ c.map .cyhal_gpio_read) (by omega) (by omega)
      refine ⟨tr1, ?_, ?_, ?_⟩
      · simp only [page_loop, bind_apply, Task.bind, e2]
        exact h1
      · rw [h2, button_reads_append, button_reads_append, (led_page_calls_no_reads j).1,
          button_reads_map, List.append_nil, hs, List.map_append, List.append_assoc]
      · rw [h3, without_button_reads_append, without_button_reads_append,
          (led_page_calls_no_reads j).2, without_button_reads_map, List.append_nil,
          flatMap_range_succ led_page_calls j (m + 1), List.append_assoc]

/-! ## C3 : one page per press and release -/

/-- C3.  Let both SPI calls succeed, let `s` be any finite sequence of
button samples, holding `n = press_release_cycles env s` complete
press-then-release cycles, and let the `for(;;)` be unrolled at least `n`
times.  Then `eInk_task` ends blocked in the button wait with every sample
read, and the calls it has made, the button reads apart, are those of the
startup and instructions screens followed by exactly the `n` LED pages
number `0, ..., n - 1`, page number `j` being `ledPageArray[j mod 3]` (the
lookup always succeeds).  For `n = 0` no LED page is rendered. -/
theorem pages_scroll_by_one (env : Env)
    (h1 : env.CY_RSLT_SUCCESS = env.spi_init_result)
    (h2 : env.CY_RSLT_SUCCESS = env.spi_set_frequency_result)
    (s : List Bool) (fuel : Nat) (hfuel : press_release_cycles env s ≤ fuel) :
    (∃ tr, eInk_task env fuel ⟨s, []⟩ = .blocked ⟨[], tr⟩
      ∧ button_reads tr = s.map .cyhal_gpio_read
      ∧ without_button_reads tr
          = calls_before_first_wait
            ++ (List.range (press_release_cycles env s)).flatMap led_page_calls)
    ∧ ∀ j, ∃ page, ledPageArray[j % 3]? = some page
        ∧ led_page_calls j
          = [.cyhal_pwm_set_duty_cycle (50 * ((j % 3 : Nat) : Int)) 1, .cyhal_pwm_start]
            ++ page
            ++ [.mtb_e2271cs021_show_frame .MTB_E2271CS021_FULL_2STAGE true] := by
  refine ⟨?_, ?_⟩
  · rw [eInk_task_eq env fuel ⟨s, []⟩ h1 h2]
    rcases wait_cycles env s ([] ++ calls_before_first_wait)
      with ⟨h0, hb⟩ | ⟨c, r, hs, hc, hr⟩
    · refine ⟨[] ++ calls_before_first_wait ++ s.map .cyhal_gpio_read, ?_, ?_, ?_⟩
      · show (match wait_for_switch_press_and_release env
            ⟨s, [] ++ calls_before_first_wait⟩ with
          | .ret _ w1 => page_loop env fuel loop_entry w1
          | .blocked w1 => .blocked w1
          | .fault w1 => .fault w1
          | .timeout w1 => .timeout w1) = _
        rw [hb]
      · rw [List.nil_append, button_reads_append, calls_before_first_wait_no_reads.1,
          button_reads_map, List.nil_append]
      · rw [List.nil_append, without_button_reads_append,
          calls_before_first_wait_no_reads.2, without_button_reads_map, h0]
        rfl
    · obtain ⟨tr1, e1, e2, e3⟩ := page_loop_run env (press_release_cycles env r) fuel 0 r
        ([] ++ calls_before_first_wait ++ c.map .cyhal_gpio_read) rfl (by omega)
      refine ⟨tr1, ?_, ?_, ?_⟩
      · show (match wait_for_switch_press_and_release env
            ⟨s, [] ++ calls_before_first_wait⟩ with
          | .ret _ w1 => page_loop env fuel loop_entry w1
          | .blocked w1 => .blocked w1
          | .fault w1 => .fault w1
          | .timeout w1 => .timeout w1) = _
        rw [hr]
        exact e1
      · rw [e2, List.nil_append, button_reads_append, calls_before_first_wait_no_reads.1,
          button_reads_map, List.nil_append, hs, List.map_append]
      · rw [e3, List.nil_append, without_button_reads_append,
          calls_before_first_wait_no_reads.2, without_button_reads_map, List.append_nil, hc]
        simp only [Nat.zero_add]
  · intro j
    obtain ⟨page, hp, -⟩ := ledPageArray_at j
    exact ⟨page, hp, by simp [led_page_calls, hp]⟩

/-- C3 at a concrete input: on the kit, two press-and-release cycles render
`show_led_on` and then `show_led_blink`. -/
theorem pages_scroll_by_one_witness :
    kit_env.CY_RSLT_SUCCESS = kit_env.spi_init_result
    ∧ kit_env.CY_RSLT_SUCCESS = kit_env.spi_set_frequency_result
    ∧ press_release_cycles kit_env [true, false, false, true, false, true, true] = 2
    ∧ ∃ tr, eInk_task kit_env 2 ⟨[true, false, false, true, false, true, true], []⟩
        = .blocked ⟨[], tr⟩
      ∧ button_reads tr
        = [true, false, false, true, false, true, true].map .cyhal_gpio_read
      ∧ without_button_reads tr
          = calls_before_first_wait
            ++ (List.range (press_release_cycles kit_env
                [true, false, false, true, false, true, true])).flatMap led_page_calls :=
  ⟨rfl, rfl, by decide,
    (pages_scroll_by_one kit_env rfl rfl [true, false, false, true, false, true, true] 2
      (by decide)).1⟩

end EInk
